import Mathlib

/-!
Shallow embedding of the `db-query-builder` repository (Go): the predicate
model (`models.Field` and friends), the `WHERE`-clause renderer
`BuildSQLWhere`, the membership-list renderer `BuildIN`, the pagination
builder `BuildSQLPagination`, and the driver-error classifiers
`CheckConstraint` / `CheckError`, together with theorems settling the
specification claims about them.

Go's dynamically-typed `interface{}` values are modelled by the inductive
`GoValue`; Go `error` values by `Option GoError` (`none` = nil error);
Go `uint` arithmetic by `Nat` with explicit wrap-around at `2 ^ 64` where
an expression can overflow.
-/

set_option maxHeartbeats 1000000
set_option maxRecDepth 100000

namespace DbQueryBuilder

/-- Model of the dynamic (`interface{}`) values that flow through the
builder: nil, the scalar kinds used by callers, and the slice kinds the
membership renderer's type switch distinguishes (plus slice kinds that
fall into its `default` arm, such as `[]int64`). -/
inductive GoValue where
  | vNil
  | vInt (n : Int)
  | vUint (n : Nat)
  | vString (s : String)
  | vBool (b : Bool)
  | vIntList (xs : List Int)
  | vUintList (xs : List Nat)
  | vStringList (xs : List String)
  | vInt64List (xs : List Int)
  | vInt32List (xs : List Int)
  | vUint8List (xs : List Nat)
  | vBoolList (xs : List Bool)
  deriving DecidableEq

/-- The dynamic Go type of a value, as `reflect.TypeOf` distinguishes the
kinds modelled here. -/
inductive GoType where
  | tInt
  | tUint
  | tString
  | tBool
  | tIntList
  | tUintList
  | tStringList
  | tInt64List
  | tInt32List
  | tUint8List
  | tBoolList
  deriving DecidableEq

/-- Model of `reflect.TypeOf`: `none` for a nil interface value. -/
def GoValue.typeOf : GoValue → Option GoType
  | .vNil => none
  | .vInt _ => some .tInt
  | .vUint _ => some .tUint
  | .vString _ => some .tString
  | .vBool _ => some .tBool
  | .vIntList _ => some .tIntList
  | .vUintList _ => some .tUintList
  | .vStringList _ => some .tStringList
  | .vInt64List _ => some .tInt64List
  | .vInt32List _ => some .tInt32List
  | .vUint8List _ => some .tUint8List
  | .vBoolList _ => some .tBoolList

/-- The operator enumeration of `models` (`operatorField`). `unset` models
the empty string value of a zero-initialized field. -/
inductive operatorField where
  | unset
  | Equals
  | NotEqualTo
  | LessThan
  | GreaterThan
  | LessThanOrEqualTo
  | GreaterThanOrEqualTo
  | Ilike
  | In
  | IsNull
  | IsNotNull
  | Between
  deriving DecidableEq

/-- The string each operator constant is declared as in `models`. -/
def operatorField.str : operatorField → String
  | .unset => ""
  | .Equals => "="
  | .NotEqualTo => "<>"
  | .LessThan => "<"
  | .GreaterThan => ">"
  | .LessThanOrEqualTo => "<="
  | .GreaterThanOrEqualTo => ">="
  | .Ilike => "ILIKE"
  | .In => "IN"
  | .IsNull => "IS NULL"
  | .IsNotNull => "IS NOT NULL"
  | .Between => "BETWEEN"

/-- The chaining-connector enumeration of `models` (`ChainingField`).
`unset` models the empty string of a zero-initialized field. -/
inductive ChainingField where
  | unset
  | And
  | Or
  deriving DecidableEq

/-- The string each chaining constant is declared as in `models`. -/
def ChainingField.str : ChainingField → String
  | .unset => ""
  | .And => "AND"
  | .Or => "OR"

/-- `models.Field`: one filter condition. -/
structure Field where
  Name : String := ""
  Operator : operatorField := .unset
  Value : GoValue := .vNil
  FromValue : GoValue := .vNil
  ToValue : GoValue := .vNil
  ChainingKey : ChainingField := .unset
  Source : String := ""
  GroupOpen : Bool := false
  GroupClose : Bool := false
  IsValueFromTable : Bool := false
  NameValueFromTable : String := ""
  SourceNameValueFromTable : String := ""
  deriving DecidableEq

/-- Model of `strings.ToLower` (rune-wise lowering; ASCII case folding). -/
def stringsToLower (s : String) : String := ⟨s.data.map Char.toLower⟩

/-- `postgres.ErrFieldsAreEmpty`. -/
def ErrFieldsAreEmpty : String := "FAILED! YOU NEED TO SEND FIELDS"

/-- Message of `models.ErrFromValueIsEmpty`. -/
def errFromValueIsEmpty : String := "`from` value is empty"

/-- Message of `models.ErrToValueIsEmpty`. -/
def errToValueIsEmpty : String := "`to` value is empty"

/-- Message of `models.ErrFromAndToValuesAreMissMatch`. -/
def errFromAndToValuesAreMissMatch : String := "`from` and `to` values are missmatch"

/-- `models.Field.ValidateFromAndToValues`: `some msg` models a non-nil
error with that message, `none` a nil error. -/
def ValidateFromAndToValues (f : Field) : Option String :=
  if f.FromValue = .vNil then some errFromValueIsEmpty
  else if f.ToValue = .vNil then some errToValueIsEmpty
  else if f.FromValue.typeOf ≠ f.ToValue.typeOf then some errFromAndToValuesAreMissMatch
  else none

/-- `postgres.setChainingField` (on a private copy, hence `Field → Field`). -/
def setChainingField (f : Field) : Field :=
  if f.ChainingKey = .unset then { f with ChainingKey := .And } else f

/-- `postgres.setOperatorField`. -/
def setOperatorField (f : Field) : Field :=
  if f.Operator = .unset then { f with Operator := .Equals } else f

/-- `postgres.setAliases`. -/
def setAliases (f : Field) : Field :=
  let f1 := if f.Source ≠ "" then { f with Name := f.Source ++ "." ++ f.Name } else f
  if f1.SourceNameValueFromTable ≠ "" then
    { f1 with NameValueFromTable := f1.SourceNameValueFromTable ++ "." ++ f1.NameValueFromTable }
  else f1

/-- `postgres.setGroupOpen`: grouping is implemented by prefixing `(` onto
the column name. -/
def setGroupOpen (f : Field) : Field :=
  if f.GroupOpen then { f with Name := "(" ++ f.Name } else f

/-- `postgres.setDefaultValuesField`: chaining key, operator, aliases, then
the group-open paren prefix. -/
def setDefaultValuesField (f : Field) : Field :=
  setGroupOpen (setAliases (setOperatorField (setChainingField f)))

/-- Model of `strings.TrimSuffix(s, ",")`: drop the final character when it
is a comma. -/
def trimSuffixComma (s : String) : String :=
  if s.data.getLast? = some ',' then ⟨s.data.dropLast⟩ else s

/-- `postgres.BuildIN`: the membership-list renderer. Only the exact
dynamic types `[]uint`, `[]int` and `[]string` (non-empty) render an `IN`
list; everything else collapses to the `"{name} = 0"` fail-safe. -/
def BuildIN (field : Field) : String :=
  let nameField := stringsToLower field.Name
  let mistakeIN := nameField ++ " = 0"
  match field.Value with
  | .vUintList items =>
    if items.length = 0 then mistakeIN
    else
      nameField ++ " IN (" ++
        trimSuffixComma (items.foldl (fun acc item => acc ++ Nat.repr item ++ ",") "") ++ ")"
  | .vIntList items =>
    if items.length = 0 then mistakeIN
    else
      nameField ++ " IN (" ++
        trimSuffixComma (items.foldl (fun acc item => acc ++ Int.repr item ++ ",") "") ++ ")"
  | .vStringList items =>
    if items.length = 0 then mistakeIN
    else
      nameField ++ " IN (" ++
        trimSuffixComma (items.foldl (fun acc item => acc ++ ("'" ++ item ++ "'") ++ ",") "") ++ ")"
  | _ => mistakeIN

/-- Model of `strings.Repeat(")", n)`. -/
def closeParens (n : Nat) : String := ⟨List.replicate n ')'⟩

/-- The group-close bookkeeping of one `BuildSQLWhere` iteration, on the
already-defaulted field and the group counter `g1` already incremented
for `GroupOpen`: the conditional `)` for `GroupClose`, and the
force-close of the groups still open at the last field. Returns the
emitted text and the new group counter. -/
def groupCloseStep (f : Field) (isLast : Bool) (g1 : Nat) : String × Nat :=
  let g2 := if 0 < g1 ∧ f.GroupClose then g1 - 1 else g1
  let t1 := if 0 < g1 ∧ f.GroupClose then ")" else ""
  let t2 := if 0 < g2 ∧ isLast then closeParens g2 else ""
  (t1 ++ t2, g2)

/-- The chaining connector `BuildSQLWhere` emits after a rendered field:
nothing at the last field, otherwise the field's own (defaulted)
`ChainingKey` framed by single spaces. -/
def chainText (f : Field) (isLast : Bool) : String :=
  if isLast then "" else " " ++ f.ChainingKey.str ++ " "

/-- One loop iteration of `BuildSQLWhere` up to (and including) the
group-close bookkeeping, on the already-defaulted field `f` and the
group counter `g1` already incremented for `GroupOpen`: the operator
switch (which can abort with a `Between` validation error), then the
group-close bookkeeping. Returns the emitted text, the parameter counter
after the switch, and the new group counter. -/
def whereBodyClose (f : Field) (isLast : Bool) (psq g1 : Nat) :
    Except String (String × Nat × Nat) :=
  let bodyE : Except String (String × Nat) :=
    match f.Operator with
    | .In => .ok (BuildIN f, psq)
    | .IsNull => .ok (stringsToLower f.Name ++ " " ++ f.Operator.str, psq)
    | .IsNotNull => .ok (stringsToLower f.Name ++ " " ++ f.Operator.str, psq)
    | .Between =>
      match ValidateFromAndToValues f with
      | some e => .error e
      | none =>
        .ok (stringsToLower f.Name ++ " " ++ f.Operator.str ++ " $" ++ Nat.repr psq ++
          " AND $" ++ Nat.repr (psq + 1), psq + 1)
    | _ =>
      if f.IsValueFromTable then
        .ok (stringsToLower f.Name ++ " " ++ f.Operator.str ++ " " ++
          stringsToLower f.NameValueFromTable, psq)
      else
        .ok (stringsToLower f.Name ++ " " ++ f.Operator.str ++ " $" ++ Nat.repr psq, psq)
  match bodyE with
  | .error e => .error e
  | .ok (body, psq1) =>
    .ok (body ++ (groupCloseStep f isLast g1).1, psq1, (groupCloseStep f isLast g1).2)

/-- One full loop iteration of `BuildSQLWhere` on the raw field: apply
defaulting, bump the group counter for `GroupOpen`, render body and
closes, append the chaining connector except at the last field, and do
the argument / parameter-counter bookkeeping (skipped entirely for
`In` / `IS NULL` / `IS NOT NULL` / cross-table comparisons). Returns the
emitted text, the appended arguments, the next parameter counter and the
next group counter. -/
def whereStep (field0 : Field) (isLast : Bool) (psq g : Nat) :
    Except String (String × List GoValue × Nat × Nat) :=
  let f := setDefaultValuesField field0
  let g1 := if f.GroupOpen then g + 1 else g
  match whereBodyClose f isLast psq g1 with
  | .error e => .error e
  | .ok (t, psq1, g2) =>
    if f.Operator = .In ∨ f.Operator = .IsNull ∨ f.Operator = .IsNotNull ∨
        f.IsValueFromTable then
      .ok (t ++ chainText f isLast, [], psq1, g2)
    else
      let as :=
        (if f.Value ≠ .vNil then [f.Value] else []) ++
        (if f.Operator = .Between then [f.FromValue, f.ToValue] else [])
      .ok (t ++ chainText f isLast, as, psq1 + 1, g2)

/-- The loop of `BuildSQLWhere`, threading the parameter counter, the
open-group counter, the accumulated query text and the accumulated
arguments. A `Between` validation failure aborts, returning the error
text in place of the query and nil arguments. -/
def buildWhereAux : List Field → Nat → Nat → String → List GoValue → String × List GoValue
  | [], _, _, query, args => (query, args)
  | field0 :: rest, psq, g, query, args =>
    match whereStep field0 rest.isEmpty psq g with
    | .error e => (e, [])
    | .ok (t, as, psq1, g2) => buildWhereAux rest psq1 g2 (query ++ t) (args ++ as)

/-- `postgres.BuildSQLWhere`. -/
def BuildSQLWhere (fields : List Field) : String × List GoValue :=
  if fields.length = 0 then (ErrFieldsAreEmpty, [])
  else buildWhereAux fields 1 0 "WHERE " []

/-- `models.Pagination` (`uint` fields modelled as `Nat`). -/
structure Pagination where
  Page : Nat := 0
  Limit : Nat := 0
  MaxLimit : Nat := 0
  deriving DecidableEq

/-- The modulus of Go's 64-bit `uint`. -/
def uintSize : Nat := 2 ^ 64

/-- Go `uint` multiplication (wraps at `2 ^ 64`). -/
def uintMul (a b : Nat) : Nat := a * b % uintSize

/-- Go `uint` subtraction (wraps at `2 ^ 64`). -/
def uintSub (a b : Nat) : Nat := (a + (uintSize - b % uintSize)) % uintSize

/-- The `MaxLimit` value after the defaulting in `BuildSQLPagination`. -/
def pagMaxLimit (pag : Pagination) : Nat :=
  if pag.MaxLimit = 0 then 20 else pag.MaxLimit

/-- The `Limit` value after the clamping in `BuildSQLPagination`. -/
def pagLimit (pag : Pagination) : Nat :=
  if pag.Limit = 0 ∨ pagMaxLimit pag < pag.Limit then pagMaxLimit pag else pag.Limit

/-- The `Page` value after the defaulting in `BuildSQLPagination`. -/
def pagPage (pag : Pagination) : Nat :=
  if pag.Page = 0 then 1 else pag.Page

/-- `postgres.BuildSQLPagination`. -/
def BuildSQLPagination (pag : Pagination) : String :=
  if pag.Limit = 0 ∧ pag.Page = 0 then ""
  else
    let limit := pagLimit pag
    let page := pagPage pag
    let offset := uintSub (uintMul page limit) limit
    "LIMIT " ++ Nat.repr limit ++ " OFFSET " ++ Nat.repr offset

/-- Model of the Go `error` values the classifiers deal with: a `pq.Error`
(carrying its constraint name and SQL error code), the three fixed domain
errors of `models`, or any other error. A nil Go error is `none` at use
sites. -/
inductive GoError where
  | pqError (constraint : String) (code : String)
  | errUnique
  | errForeignKey
  | errNotNull
  | generic (msg : String)
  deriving DecidableEq

/-- `postgres.Constraints`: the caller-supplied constraint-name → error
mapping. -/
abbrev Constraints := List (String × GoError)

/-- `postgres.CheckConstraint`. -/
def CheckConstraint (constraints : Constraints) (err : Option GoError) : Option GoError :=
  match err with
  | some (.pqError constraint _) =>
    match constraints.lookup constraint with
    | some constraintErr => some constraintErr
    | none => err
  | _ => err

/-- `postgres.CheckError`. -/
def CheckError (err : Option GoError) : Option GoError :=
  match err with
  | some (.pqError _ code) =>
    if code = "23505" then some .errUnique
    else if code = "23503" then some .errForeignKey
    else if code = "23502" then some .errNotNull
    else none
  | _ => none

/-- The seven scalar-comparison operators (those rendered by the `default`
arm of the operator switch). -/
def operatorField.isScalar : operatorField → Bool
  | .Equals => true
  | .NotEqualTo => true
  | .LessThan => true
  | .GreaterThan => true
  | .LessThanOrEqualTo => true
  | .GreaterThanOrEqualTo => true
  | .Ilike => true
  | _ => false

/-- How many placeholders a scalar-comparison predicate consumes: none for
a cross-table comparison, one otherwise. -/
def scalarConsume (f : Field) : Nat := if f.IsValueFromTable then 0 else 1

/-- The clause a single scalar-comparison predicate renders to, when the
current placeholder counter is `psq`. -/
def scalarClause (f : Field) (psq : Nat) : String :=
  if (setDefaultValuesField f).IsValueFromTable then
    stringsToLower (setDefaultValuesField f).Name ++ " " ++
      (setDefaultValuesField f).Operator.str ++ " " ++
      stringsToLower (setDefaultValuesField f).NameValueFromTable
  else
    stringsToLower (setDefaultValuesField f).Name ++ " " ++
      (setDefaultValuesField f).Operator.str ++ " $" ++ Nat.repr psq

/-- Specification-side closed form of the fragment for a scalar-only,
group-free predicate sequence: the clauses joined by each predicate's own
chaining connector, with the placeholder counter advanced exactly by
`scalarConsume` per predicate, so the k-th placeholder-consuming
predicate is rendered with `$(k+1)`. -/
def scalarFragSpec : List Field → Nat → String
  | [], _ => ""
  | [f], psq => scalarClause f psq
  | f :: g :: rest, psq =>
    scalarClause f psq ++ " " ++ (setDefaultValuesField f).ChainingKey.str ++ " " ++
      scalarFragSpec (g :: rest) (psq + scalarConsume f)

/-- Specification-side argument list for a scalar-only predicate sequence:
the values of the placeholder-consuming (non-cross-table) predicates, in
predicate order. -/
def scalarArgsSpec (fields : List Field) : List GoValue :=
  (fields.filter (fun f => !f.IsValueFromTable)).map Field.Value

/-- Specification-side renderer with the connector placement made
explicit: each rendered piece is followed by the connector of the field
that produced it, except the last piece, after which nothing is emitted.
Reuses the embedded body/close step, so it differs from the real loop
only in how the connector is interleaved. -/
def renderWithConnectors : List Field → Nat → Nat → String
  | [], _, _ => ""
  | field0 :: rest, psq, g =>
    let f := setDefaultValuesField field0
    let g1 := if f.GroupOpen then g + 1 else g
    match whereBodyClose f rest.isEmpty psq g1 with
    | .error e => e
    | .ok (t, psq1, g2) =>
      if rest.isEmpty then t
      else
        t ++ " " ++ f.ChainingKey.str ++ " " ++
          renderWithConnectors rest
            (if f.Operator = .In ∨ f.Operator = .IsNull ∨ f.Operator = .IsNotNull ∨
                f.IsValueFromTable then psq1
             else psq1 + 1) g2

/-- Comma-joined rendering of a list of already-formatted literals, as the
specification describes the membership list. -/
def commaJoin : List String → String
  | [] => ""
  | [x] => x
  | x :: y :: rest => x ++ "," ++ commaJoin (y :: rest)

/-- The values the membership renderer's type switch accepts: a non-empty
`[]uint`, `[]int` or `[]string`. -/
def inSupported : GoValue → Bool
  | .vUintList (_ :: _) => true
  | .vIntList (_ :: _) => true
  | .vStringList (_ :: _) => true
  | _ => false

/-- Number of occurrences of the character `c` in `s`. -/
def countChar (c : Char) (s : String) : Nat := s.data.count c

/-- A character that is not a parenthesis. -/
def cleanChar (c : Char) : Bool := !(c == '(') && !(c == ')')

/-- A string containing no parenthesis characters. -/
def cleanStr (s : String) : Bool := s.data.all cleanChar

/-- A value whose rendered literals contain no parenthesis characters
(only string lists are ever rendered into the fragment). -/
def cleanValue : GoValue → Bool
  | .vStringList xs => xs.all cleanStr
  | _ => true

/-- A field none of whose caller-supplied strings contains a parenthesis
character. -/
def cleanField (f : Field) : Bool :=
  cleanStr f.Name && cleanStr f.Source && cleanStr f.NameValueFromTable &&
    cleanStr f.SourceNameValueFromTable && cleanValue f.Value

/-- A three-predicate scalar sequence including a cross-table comparison,
used as the C1 witness input. -/
def c1Fields : List Field :=
  [{ Name := "name", Operator := .Equals, Value := .vString "x" },
   { Name := "ends_at", Operator := .LessThan, IsValueFromTable := true,
     NameValueFromTable := "starts_at" },
   { Name := "age", Operator := .GreaterThan, Value := .vInt 30 }]

/-- The three-predicate input of claim C2. -/
def c2Fields : List Field :=
  [{ Name := "name", Value := .vString "Alejandro" },
   { Name := "age", Value := .vInt 30, ChainingKey := .Or },
   { Name := "course", Value := .vString "Go" }]

/-- A predicate sequence with unbalanced caller-supplied grouping flags:
a `GroupClose` at depth zero and two `GroupOpen`s never closed. -/
def c3Fields : List Field :=
  [{ Name := "a", Value := .vInt 1, GroupClose := true },
   { GroupOpen := true, Name := "b", Value := .vBool true, ChainingKey := .Or },
   { GroupOpen := true, Name := "c", Value := .vBool false }]

/-- A `Between` predicate with no bounds, aborting validation. -/
def c5AbortField : Field := { Name := "begins_at", Operator := .Between }

/-- A valid `Between` predicate with same-typed bounds. -/
def c5OkField : Field :=
  { Name := "begins_at", Operator := .Between, FromValue := .vInt 1, ToValue := .vInt 2 }

/-- The `In` predicate of the repository's tests, used as the C6 witness
input. -/
def c6Field : Field := { Name := "id", Value := .vUintList [1, 2, 3], Operator := .In }

example :
    BuildSQLWhere
      [{ Name := "name", Value := .vString "Alejandro" },
       { Name := "age", Value := .vInt 30, ChainingKey := .Or },
       { Name := "course", Value := .vString "Go" }] =
    ("WHERE name = $1 AND age = $2 OR course = $3",
     [.vString "Alejandro", .vInt 30, .vString "Go"]) := by decide

example :
    BuildSQLWhere [{ Name := "id", Value := .vUintList [1, 2, 3], Operator := .In }] =
    ("WHERE id IN (1,2,3)", []) := by decide

example :
    BuildSQLWhere
      [{ Name := "employer_id", Value := .vInt 1 },
       { Name := "pay_frequency_id", Value := .vInt 2 },
       { GroupOpen := true, Name := "is_active", Value := .vBool true, ChainingKey := .Or },
       { GroupClose := true, Name := "is_staff", Value := .vBool false },
       { Source := "contract_statuses", Name := "description", Value := .vString "ACTIVE",
         Operator := .Ilike }] =
    ("WHERE employer_id = $1 AND pay_frequency_id = $2 AND (is_active = $3 OR is_staff = $4) AND contract_statuses.description ILIKE $5",
     [.vInt 1, .vInt 2, .vBool true, .vBool false, .vString "ACTIVE"]) := by decide

example :
    BuildSQLWhere
      [{ Name := "employer_id", Value := .vInt 1 },
       { Name := "pay_frequency_id", Value := .vInt 2 },
       { GroupOpen := true, Name := "is_active", Value := .vBool true, ChainingKey := .Or },
       { Source := "contract_statuses", Name := "description", Value := .vString "ACTIVE",
         Operator := .Ilike }] =
    ("WHERE employer_id = $1 AND pay_frequency_id = $2 AND (is_active = $3 OR contract_statuses.description ILIKE $4)",
     [.vInt 1, .vInt 2, .vBool true, .vString "ACTIVE"]) := by decide

example :
    BuildSQLWhere
      [{ Source := "contracts", Name := "employer_id", Value := .vInt 777 },
       { Source := "contracts", Name := "pay_frequency_id", Value := .vInt 2,
         ChainingKey := .Or },
       { Source := "contracts", Name := "endS_at", Operator := .LessThan,
         IsValueFromTable := true, SourceNameValueFromTable := "peRiods",
         NameValueFromTable := "eNds_at" },
       { Source := "contracts", Name := "is_active", Value := .vBool true },
       { Source := "contract_statuses", Name := "description", Value := .vString "ACTIVE",
         Operator := .Ilike }] =
    ("WHERE contracts.employer_id = $1 AND contracts.pay_frequency_id = $2 OR contracts.ends_at < periods.ends_at AND contracts.is_active = $3 AND contract_statuses.description ILIKE $4",
     [.vInt 777, .vInt 2, .vBool true, .vString "ACTIVE"]) := by decide

example : BuildSQLPagination { Page := 2, Limit := 10, MaxLimit := 10 } = "LIMIT 10 OFFSET 10" := by decide

example : BuildSQLPagination { Page := 0, Limit := 5, MaxLimit := 0 } = "LIMIT 5 OFFSET 0" := by decide

example : BuildSQLPagination {} = "" := by decide

/-! ### Structural facts about the defaulting pass -/

theorem setDefault_Operator (f : Field) :
    (setDefaultValuesField f).Operator =
      if f.Operator = .unset then .Equals else f.Operator := by
  simp only [setDefaultValuesField, setChainingField, setOperatorField, setAliases, setGroupOpen]
  split_ifs <;> rfl

theorem setDefault_ChainingKey (f : Field) :
    (setDefaultValuesField f).ChainingKey =
      if f.ChainingKey = .unset then .And else f.ChainingKey := by
  simp only [setDefaultValuesField, setChainingField, setOperatorField, setAliases, setGroupOpen]
  split_ifs <;> rfl

theorem setDefault_Value (f : Field) : (setDefaultValuesField f).Value = f.Value := by
  simp only [setDefaultValuesField, setChainingField, setOperatorField, setAliases, setGroupOpen]
  split_ifs <;> rfl

theorem setDefault_FromValue (f : Field) :
    (setDefaultValuesField f).FromValue = f.FromValue := by
  simp only [setDefaultValuesField, setChainingField, setOperatorField, setAliases, setGroupOpen]
  split_ifs <;> rfl

theorem setDefault_ToValue (f : Field) : (setDefaultValuesField f).ToValue = f.ToValue := by
  simp only [setDefaultValuesField, setChainingField, setOperatorField, setAliases, setGroupOpen]
  split_ifs <;> rfl

theorem setDefault_GroupOpen (f : Field) :
    (setDefaultValuesField f).GroupOpen = f.GroupOpen := by
  simp only [setDefaultValuesField, setChainingField, setOperatorField, setAliases, setGroupOpen]
  split_ifs <;> rfl

theorem setDefault_GroupClose (f : Field) :
    (setDefaultValuesField f).GroupClose = f.GroupClose := by
  simp only [setDefaultValuesField, setChainingField, setOperatorField, setAliases, setGroupOpen]
  split_ifs <;> rfl

theorem setDefault_IsValueFromTable (f : Field) :
    (setDefaultValuesField f).IsValueFromTable = f.IsValueFromTable := by
  simp only [setDefaultValuesField, setChainingField, setOperatorField, setAliases, setGroupOpen]
  split_ifs <;> rfl

theorem setDefault_Name (f : Field) :
    (setDefaultValuesField f).Name =
      if f.GroupOpen then
        "(" ++ (if f.Source ≠ "" then f.Source ++ "." ++ f.Name else f.Name)
      else
        (if f.Source ≠ "" then f.Source ++ "." ++ f.Name else f.Name) := by
  simp only [setDefaultValuesField, setChainingField, setOperatorField, setAliases, setGroupOpen]
  split_ifs <;> rfl

theorem setDefault_NameValueFromTable (f : Field) :
    (setDefaultValuesField f).NameValueFromTable =
      if f.SourceNameValueFromTable ≠ "" then
        f.SourceNameValueFromTable ++ "." ++ f.NameValueFromTable
      else f.NameValueFromTable := by
  simp only [setDefaultValuesField, setChainingField, setOperatorField, setAliases, setGroupOpen]
  split_ifs <;> rfl

theorem validate_setDefault (f : Field) :
    ValidateFromAndToValues (setDefaultValuesField f) = ValidateFromAndToValues f := by
  unfold ValidateFromAndToValues
  rw [setDefault_FromValue, setDefault_ToValue]

/-! ### Claim C7 -/

/-- C7: rendering an empty predicate sequence with `BuildSQLWhere` yields
the `ErrFieldsAreEmpty` sentinel string in place of the fragment and an
empty argument list. -/
theorem claim_C7 : BuildSQLWhere [] = (ErrFieldsAreEmpty, []) := rfl

/-! ### Claim C2 -/

/-- C2 as stated is false: on its input the fragment is not
`WHERE name = $1 OR age = $2 AND course = $3`. The connector emitted
after a predicate is that predicate's own (defaulted) ChainingKey, so
the `Or` carried by the second predicate lands between the second and
third clauses, not between the first and second; the repository's own
test asserts exactly that placement. -/
theorem claim_C2_counterexample :
    (BuildSQLWhere c2Fields).1 ≠ "WHERE name = $1 OR age = $2 AND course = $3" := by decide

/-- C2 amended: on the input `[{name, "Alejandro"}, {age, 30, Or},
{course, "Go"}]`, `BuildSQLWhere` returns exactly the fragment
`WHERE name = $1 AND age = $2 OR course = $3` and the argument list
`["Alejandro", 30, "Go"]`. -/
theorem claim_C2_amended :
    BuildSQLWhere c2Fields =
      ("WHERE name = $1 AND age = $2 OR course = $3",
       [.vString "Alejandro", .vInt 30, .vString "Go"]) := by decide

/-! ### Claim C8 -/

theorem uintSub_uintMul (p l : Nat) (hp : 1 ≤ p) :
    uintSub (uintMul p l) l = ((p - 1) * l) % uintSize := by
  have hM : 0 < uintSize := by norm_num [uintSize]
  have hr : l % uintSize < uintSize := Nat.mod_lt _ hM
  have hdm : uintSize * (l / uintSize) + l % uintSize = l := Nat.div_add_mod l uintSize
  have hp1 : p * l = (p - 1) * l + l := by
    cases p with
    | zero => omega
    | succ n => simp [Nat.succ_mul, Nat.succ_sub_one]
  unfold uintSub uintMul
  rw [Nat.mod_add_mod, hp1]
  have hsum : (p - 1) * l + l + (uintSize - l % uintSize) =
      (p - 1) * l + (uintSize * (l / uintSize) + uintSize) := by
    have h1 : l + (uintSize - l % uintSize) = uintSize * (l / uintSize) + uintSize := by
      omega
    omega
  rw [hsum, ← Nat.mul_succ, Nat.add_mul_mod_self_left]

/-- C8: `BuildSQLPagination` returns the empty string when both `Page` and
`Limit` are zero; otherwise `MaxLimit` defaults to 20 when zero
(`pagMaxLimit`), `Limit` is replaced by that `MaxLimit` when zero or
greater than it (`pagLimit`), `Page` defaults to 1 when zero
(`pagPage`), and the result is `LIMIT {limit} OFFSET {offset}` with
`offset = (page - 1) * limit`. The hypothesis keeps the offset inside
Go's `uint` range, where the wrap-around subtraction in the code is
exact. -/
theorem claim_C8 (pag : Pagination)
    (hoff : (pagPage pag - 1) * pagLimit pag < uintSize) :
    BuildSQLPagination pag =
      if pag.Limit = 0 ∧ pag.Page = 0 then ""
      else
        "LIMIT " ++ Nat.repr (pagLimit pag) ++ " OFFSET " ++
          Nat.repr ((pagPage pag - 1) * pagLimit pag) := by
  unfold BuildSQLPagination
  split
  · rfl
  · have hp : 1 ≤ pagPage pag := by unfold pagPage; split <;> omega
    show "LIMIT " ++ (pagLimit pag).repr ++ " OFFSET " ++
        (uintSub (uintMul (pagPage pag) (pagLimit pag)) (pagLimit pag)).repr = _
    rw [uintSub_uintMul _ _ hp, Nat.mod_eq_of_lt hoff]

/-- Witness for C8 at the pagination `{Page := 2, Limit := 10,
MaxLimit := 10}` from the repository's tests. -/
theorem claim_C8_witness :
    ((pagPage { Page := 2, Limit := 10, MaxLimit := 10 } - 1) *
        pagLimit { Page := 2, Limit := 10, MaxLimit := 10 } < uintSize) ∧
    BuildSQLPagination { Page := 2, Limit := 10, MaxLimit := 10 } =
      (if (10 : Nat) = 0 ∧ (2 : Nat) = 0 then ""
       else
         "LIMIT " ++ Nat.repr (pagLimit { Page := 2, Limit := 10, MaxLimit := 10 }) ++
           " OFFSET " ++
           Nat.repr ((pagPage { Page := 2, Limit := 10, MaxLimit := 10 } - 1) *
             pagLimit { Page := 2, Limit := 10, MaxLimit := 10 })) :=
  ⟨by decide, claim_C8 { Page := 2, Limit := 10, MaxLimit := 10 } (by decide)⟩

/-! ### Claim C9 -/

/-- C9 as stated is false for `CheckError`: on an error that is not a
driver error it returns nil (`none`), not the original error. -/
theorem claim_C9_counterexample :
    CheckError (some (GoError.generic "boom")) ≠ some (GoError.generic "boom") := by decide

/-- C9 amended: `CheckConstraint` returns the mapped domain error when the
input is a driver error whose constraint name is mapped, and the
original error unchanged otherwise; `CheckError` returns the fixed
domain error for the SQL codes 23505 / 23503 / 23502 and nil — not the
original error — for every other input. -/
theorem claim_C9_amended :
    (∀ (cs : Constraints) (c code : String) (e : GoError),
        cs.lookup c = some e →
        CheckConstraint cs (some (.pqError c code)) = some e) ∧
    (∀ (cs : Constraints) (err : Option GoError),
        (∀ c code, err = some (.pqError c code) → cs.lookup c = none) →
        CheckConstraint cs err = err) ∧
    (∀ c, CheckError (some (.pqError c "23505")) = some .errUnique) ∧
    (∀ c, CheckError (some (.pqError c "23503")) = some .errForeignKey) ∧
    (∀ c, CheckError (some (.pqError c "23502")) = some .errNotNull) ∧
    (∀ (err : Option GoError),
        (∀ c code, err = some (.pqError c code) →
          code ≠ "23505" ∧ code ≠ "23503" ∧ code ≠ "23502") →
        CheckError err = none) := by
  refine ⟨?_, ?_, ?_, ?_, ?_, ?_⟩
  · intro cs c code e h
    simp [CheckConstraint, h]
  · intro cs err h
    match err with
    | none => rfl
    | some (.pqError c code) =>
      have := h c code rfl
      simp [CheckConstraint, this]
    | some .errUnique => rfl
    | some .errForeignKey => rfl
    | some .errNotNull => rfl
    | some (.generic m) => rfl
  · intro c; rfl
  · intro c; rfl
  · intro c; rfl
  · intro err h
    match err with
    | none => rfl
    | some (.pqError c code) =>
      obtain ⟨h1, h2, h3⟩ := h c code rfl
      simp [CheckError, h1, h2, h3]
    | some .errUnique => rfl
    | some .errForeignKey => rfl
    | some .errNotNull => rfl
    | some (.generic m) => rfl

/-- Witness for C9 (amended), exercising a mapped constraint, an unmapped
error returned unchanged, a mapped SQL code, and an unmatched error
classified to nil. -/
theorem claim_C9_witness :
    CheckConstraint [("users_pkey", GoError.errUnique)]
        (some (.pqError "users_pkey" "23505")) = some .errUnique ∧
    CheckConstraint [] (some (.generic "x")) = some (.generic "x") ∧
    CheckError (some (.pqError "c" "23505")) = some .errUnique ∧
    CheckError (some (.generic "x")) = none :=
  ⟨claim_C9_amended.1 _ "users_pkey" "23505" _ (by decide),
   claim_C9_amended.2.1 [] _ (by intro c code h; simp at h),
   claim_C9_amended.2.2.1 "c",
   claim_C9_amended.2.2.2.2.2 _ (by intro c code h; simp at h)⟩

/-! ### Claim C10 -/

/-- C10: an `In` predicate whose `Value` is a slice of any element type
other than exactly `[]uint`, `[]int` or `[]string` — here `[]int64`,
`[]int32`, `[]uint8` and `[]bool` — takes the unsupported-type fallback
of `BuildIN` and renders `{name} = 0` even when the slice is a
non-empty list of integers. -/
theorem claim_C10 (f : Field) :
    (∀ xs, f.Value = .vInt64List xs → BuildIN f = stringsToLower f.Name ++ " = 0") ∧
    (∀ xs, f.Value = .vInt32List xs → BuildIN f = stringsToLower f.Name ++ " = 0") ∧
    (∀ xs, f.Value = .vUint8List xs → BuildIN f = stringsToLower f.Name ++ " = 0") ∧
    (∀ xs, f.Value = .vBoolList xs → BuildIN f = stringsToLower f.Name ++ " = 0") := by
  refine ⟨?_, ?_, ?_, ?_⟩ <;> intro xs h <;> simp [BuildIN, h]

/-- Witness for C10: a non-empty `[]int64` value falls back to
`{name} = 0`. -/
theorem claim_C10_witness :
    BuildIN { Name := "id", Operator := .In, Value := .vInt64List [1, 2, 3] } =
      stringsToLower "id" ++ " = 0" :=
  (claim_C10 { Name := "id", Operator := .In, Value := .vInt64List [1, 2, 3] }).1
    [1, 2, 3] rfl

/-! ### Claim C6 -/

theorem foldl_strAppend_shift {α : Type} (gstr : α → String) (xs : List α) (acc : String) :
    xs.foldl (fun a x => a ++ gstr x ++ ",") acc =
      acc ++ xs.foldl (fun a x => a ++ gstr x ++ ",") "" := by
  induction xs generalizing acc with
  | nil => simp
  | cons x rest ih =>
    rw [List.foldl_cons, List.foldl_cons, ih, ih (("" : String) ++ gstr x ++ ",")]
    simp [String.append_assoc]

theorem foldl_strAppend_cons {α : Type} (gstr : α → String) (x : α) (rest : List α) :
    (x :: rest).foldl (fun a y => a ++ gstr y ++ ",") "" =
      gstr x ++ "," ++ rest.foldl (fun a y => a ++ gstr y ++ ",") "" := by
  rw [List.foldl_cons, foldl_strAppend_shift]
  simp [String.append_assoc]

theorem foldl_strAppend_getLast {α : Type} (gstr : α → String) (xs : List α) (h : xs ≠ []) :
    (xs.foldl (fun a y => a ++ gstr y ++ ",") "").data.getLast? = some ',' := by
  induction xs with
  | nil => simp at h
  | cons x rest ih =>
    rw [foldl_strAppend_cons]
    cases rest with
    | nil =>
      simp only [List.foldl_nil, String.append_empty, String.data_append]
      exact List.getLast?_concat _
    | cons y rest' =>
      rw [String.data_append, List.getLast?_append, ih (by simp)]
      rfl

theorem trimSuffixComma_append (a t : String) (h : t.data.getLast? = some ',') :
    trimSuffixComma (a ++ t) = a ++ trimSuffixComma t := by
  unfold trimSuffixComma
  have ht : t.data ≠ [] := by
    intro hh
    rw [hh] at h
    simp at h
  rw [String.data_append, List.getLast?_append, h]
  simp only [Option.or_some, if_true]
  apply String.ext
  simp [String.data_append, List.dropLast_append_of_ne_nil _ ht]

theorem trimSuffix_foldl_eq_commaJoin {α : Type} (gstr : α → String) (xs : List α)
    (h : xs ≠ []) :
    trimSuffixComma (xs.foldl (fun a y => a ++ gstr y ++ ",") "") =
      commaJoin (xs.map gstr) := by
  induction xs with
  | nil => simp at h
  | cons x rest ih =>
    rw [foldl_strAppend_cons]
    cases rest with
    | nil =>
      simp only [List.foldl_nil, String.append_empty, List.map, commaJoin]
      rw [trimSuffixComma_append (gstr x) "," rfl]
      have h2 : trimSuffixComma "," = "" := by decide
      rw [h2, String.append_empty]
    | cons y rest' =>
      rw [trimSuffixComma_append _ _ (foldl_strAppend_getLast gstr (y :: rest') (by simp)),
        ih (by simp)]
      simp [commaJoin, String.append_assoc]

theorem BuildIN_vUintList (f : Field) (xs : List Nat) (hv : f.Value = .vUintList xs)
    (hne : xs ≠ []) :
    BuildIN f = stringsToLower f.Name ++ " IN (" ++ commaJoin (xs.map Nat.repr) ++ ")" := by
  simp only [BuildIN, hv]
  rw [if_neg (by simp [hne]), trimSuffix_foldl_eq_commaJoin _ _ hne]

theorem BuildIN_vIntList (f : Field) (xs : List Int) (hv : f.Value = .vIntList xs)
    (hne : xs ≠ []) :
    BuildIN f = stringsToLower f.Name ++ " IN (" ++ commaJoin (xs.map Int.repr) ++ ")" := by
  simp only [BuildIN, hv]
  rw [if_neg (by simp [hne]), trimSuffix_foldl_eq_commaJoin _ _ hne]

theorem BuildIN_vStringList (f : Field) (xs : List String) (hv : f.Value = .vStringList xs)
    (hne : xs ≠ []) :
    BuildIN f = stringsToLower f.Name ++ " IN (" ++
      commaJoin (xs.map (fun s => "'" ++ s ++ "'")) ++ ")" := by
  simp only [BuildIN, hv]
  rw [if_neg (by simp [hne]), trimSuffix_foldl_eq_commaJoin (fun s => "'" ++ s ++ "'") _ hne]

theorem BuildIN_fallback (f : Field) (h : inSupported f.Value = false) :
    BuildIN f = stringsToLower f.Name ++ " = 0" := by
  rcases hfv : f.Value with _ | n | n | s | b | xs | xs | xs | xs | xs | xs | xs <;>
    rw [hfv] at h
  case vIntList => cases xs <;> simp_all [BuildIN, inSupported]
  case vUintList => cases xs <;> simp_all [BuildIN, inSupported]
  case vStringList => cases xs <;> simp_all [BuildIN, inSupported]
  all_goals simp [BuildIN, hfv]

theorem whereStep_in (f : Field) (isLast : Bool) (psq g : Nat)
    (hop : (setDefaultValuesField f).Operator = .In) :
    whereStep f isLast psq g =
      .ok (BuildIN (setDefaultValuesField f) ++
            (groupCloseStep (setDefaultValuesField f) isLast
              (if (setDefaultValuesField f).GroupOpen then g + 1 else g)).1 ++
            chainText (setDefaultValuesField f) isLast,
           [], psq,
           (groupCloseStep (setDefaultValuesField f) isLast
              (if (setDefaultValuesField f).GroupOpen then g + 1 else g)).2) := by
  simp [whereStep, whereBodyClose, hop]

/-- C6: an `In` predicate consumes no placeholder and appends no argument —
the loop step emits `BuildIN` of the defaulted field (plus group closers
and connector), an empty argument delta, and an unchanged parameter
counter — and `BuildIN` renders a non-empty `[]uint` / `[]int` /
`[]string` value as `{name} IN (comma-joined literals)` (strings
single-quoted) while an empty list or any unsupported dynamic type
collapses to the fallback `{name} = 0`. -/
theorem claim_C6 :
    (∀ (f : Field) (isLast : Bool) (psq g : Nat),
        (setDefaultValuesField f).Operator = .In →
        whereStep f isLast psq g =
          .ok (BuildIN (setDefaultValuesField f) ++
                (groupCloseStep (setDefaultValuesField f) isLast
                  (if (setDefaultValuesField f).GroupOpen then g + 1 else g)).1 ++
                chainText (setDefaultValuesField f) isLast,
               [], psq,
               (groupCloseStep (setDefaultValuesField f) isLast
                  (if (setDefaultValuesField f).GroupOpen then g + 1 else g)).2)) ∧
    (∀ (f : Field) (xs : List Nat), f.Value = .vUintList xs → xs ≠ [] →
        BuildIN f = stringsToLower f.Name ++ " IN (" ++ commaJoin (xs.map Nat.repr) ++ ")") ∧
    (∀ (f : Field) (xs : List Int), f.Value = .vIntList xs → xs ≠ [] →
        BuildIN f = stringsToLower f.Name ++ " IN (" ++ commaJoin (xs.map Int.repr) ++ ")") ∧
    (∀ (f : Field) (xs : List String), f.Value = .vStringList xs → xs ≠ [] →
        BuildIN f = stringsToLower f.Name ++ " IN (" ++
          commaJoin (xs.map (fun s => "'" ++ s ++ "'")) ++ ")") ∧
    (∀ f : Field, inSupported f.Value = false →
        BuildIN f = stringsToLower f.Name ++ " = 0") :=
  ⟨whereStep_in, BuildIN_vUintList, BuildIN_vIntList, BuildIN_vStringList, BuildIN_fallback⟩

/-- Witness for C6: the test predicate `{id, [1,2,3], In}` steps with no
argument and an unchanged counter; the three render shapes and the
fallback evaluated at concrete inputs. -/
theorem claim_C6_witness :
    whereStep c6Field true 1 0 =
      .ok (BuildIN (setDefaultValuesField c6Field) ++
            (groupCloseStep (setDefaultValuesField c6Field) true
              (if (setDefaultValuesField c6Field).GroupOpen then 0 + 1 else 0)).1 ++
            chainText (setDefaultValuesField c6Field) true,
           [], 1,
           (groupCloseStep (setDefaultValuesField c6Field) true
              (if (setDefaultValuesField c6Field).GroupOpen then 0 + 1 else 0)).2) ∧
    BuildIN c6Field = stringsToLower "id" ++ " IN (" ++
      commaJoin ([1, 2, 3].map Nat.repr) ++ ")" ∧
    BuildIN { Name := "employee_id", Value := .vIntList [5, 6, 7], Operator := .In } =
      stringsToLower "employee_id" ++ " IN (" ++ commaJoin ([5, 6, 7].map Int.repr) ++ ")" ∧
    BuildIN { Name := "marital_status", Value := .vStringList ["SINGLE"], Operator := .In } =
      stringsToLower "marital_status" ++ " IN (" ++
        commaJoin (["SINGLE"].map (fun s => "'" ++ s ++ "'")) ++ ")" ∧
    BuildIN { Name := "contract_id", Value := .vUintList [], Operator := .In } =
      stringsToLower "contract_id" ++ " = 0" :=
  ⟨claim_C6.1 c6Field true 1 0 (by decide),
   claim_C6.2.1 c6Field [1, 2, 3] rfl (by decide),
   claim_C6.2.2.1 _ [5, 6, 7] rfl (by decide),
   claim_C6.2.2.2.1 _ ["SINGLE"] rfl (by decide),
   claim_C6.2.2.2.2 _ (by decide)⟩

/-! ### Claim C5 -/

theorem setDefault_Operator_of_ne_unset (f : Field) (h : f.Operator ≠ .unset) :
    (setDefaultValuesField f).Operator = f.Operator := by
  rw [setDefault_Operator, if_neg h]

theorem whereStep_between_error (f : Field) (isLast : Bool) (psq g : Nat) (e : String)
    (hb : f.Operator = .Between) (hval : ValidateFromAndToValues f = some e) :
    whereStep f isLast psq g = .error e := by
  have hop : (setDefaultValuesField f).Operator = .Between := by
    rw [setDefault_Operator_of_ne_unset f (by rw [hb]; intro hh; cases hh), hb]
  have hv2 : ValidateFromAndToValues (setDefaultValuesField f) = some e := by
    rw [validate_setDefault]; exact hval
  simp [whereStep, whereBodyClose, hop, hv2]

theorem whereStep_ok (f : Field) (isLast : Bool) (psq g : Nat)
    (h : f.Operator = .Between → ValidateFromAndToValues f = none) :
    ∃ t as psq1 g2, whereStep f isLast psq g = .ok (t, as, psq1, g2) := by
  have hop := setDefault_Operator f
  have hv : f.Operator = .Between →
      ValidateFromAndToValues (setDefaultValuesField f) = none := by
    intro hb
    rw [validate_setDefault]
    exact h hb
  cases hoc : (setDefaultValuesField f).Operator
  case unset =>
    rw [hoc] at hop
    split at hop <;> simp_all
  case Between =>
    have hfb : f.Operator = .Between := by
      rw [hoc] at hop
      split at hop <;> simp_all
    have hv2 := hv hfb
    cases hvt : (setDefaultValuesField f).IsValueFromTable <;>
      simp [whereStep, whereBodyClose, hoc, hv2, hvt]
  all_goals
    cases hvt : (setDefaultValuesField f).IsValueFromTable <;>
      simp [whereStep, whereBodyClose, hoc, hvt]

theorem buildWhereAux_between_abort :
    ∀ (pre : List Field) (f : Field) (post : List Field) (e : String)
      (psq g : Nat) (q : String) (args : List GoValue),
      (∀ gf ∈ pre, gf.Operator = .Between → ValidateFromAndToValues gf = none) →
      f.Operator = .Between → ValidateFromAndToValues f = some e →
      buildWhereAux (pre ++ f :: post) psq g q args = (e, []) := by
  intro pre
  induction pre with
  | nil =>
    intro f post e psq g q args hpre hb hval
    have hstep := whereStep_between_error f (post.isEmpty) psq g e hb hval
    simp [buildWhereAux, hstep]
  | cons x pre' ih =>
    intro f post e psq g q args hpre hb hval
    have hx : x.Operator = .Between → ValidateFromAndToValues x = none :=
      hpre x (by simp)
    obtain ⟨t, as, psq1, g2, hok⟩ :=
      whereStep_ok x ((pre' ++ f :: post).isEmpty) psq g hx
    rw [List.cons_append]
    rw [buildWhereAux, hok]
    exact ih f post e psq1 g2 (q ++ t) (args ++ as)
      (fun gf hgf => hpre gf (by simp [hgf])) hb hval

theorem whereStep_between (f : Field) (isLast : Bool) (psq g : Nat)
    (hb : f.Operator = .Between) (hvt : f.IsValueFromTable = false)
    (hv : ValidateFromAndToValues f = none) :
    whereStep f isLast psq g =
      .ok (stringsToLower (setDefaultValuesField f).Name ++ " " ++
            operatorField.Between.str ++ " $" ++ Nat.repr psq ++ " AND $" ++
            Nat.repr (psq + 1) ++
            (groupCloseStep (setDefaultValuesField f) isLast
              (if (setDefaultValuesField f).GroupOpen then g + 1 else g)).1 ++
            chainText (setDefaultValuesField f) isLast,
           (if f.Value ≠ .vNil then [f.Value] else []) ++ [f.FromValue, f.ToValue],
           psq + 2,
           (groupCloseStep (setDefaultValuesField f) isLast
              (if (setDefaultValuesField f).GroupOpen then g + 1 else g)).2) := by
  have hop : (setDefaultValuesField f).Operator = .Between := by
    rw [setDefault_Operator_of_ne_unset f (by rw [hb]; intro hh; cases hh), hb]
  have hv2 : ValidateFromAndToValues (setDefaultValuesField f) = none := by
    rw [validate_setDefault]; exact hv
  have hvt2 : (setDefaultValuesField f).IsValueFromTable = false := by
    rw [setDefault_IsValueFromTable]; exact hvt
  simp [whereStep, whereBodyClose, hop, hv2, hvt2, setDefault_Value,
    setDefault_FromValue, setDefault_ToValue, Nat.add_assoc]

/-- C5: a `Between` predicate with an absent `FromValue` / `ToValue` or
mismatched underlying types makes `BuildSQLWhere` abort: it returns the
range-validation failure text in place of the fragment with an empty
argument list, scanning the sequence in order (earlier valid predicates
leave no partial result). A valid, non-cross-table `Between` predicate
steps with the body `{name} BETWEEN ${n} AND ${n+1}` (two consecutive
placeholders), appends `FromValue` then `ToValue` to the arguments, and
advances the placeholder counter by exactly 2. -/
theorem claim_C5 :
    (∀ (pre post : List Field) (f : Field) (e : String),
        (∀ gf ∈ pre, gf.Operator = .Between → ValidateFromAndToValues gf = none) →
        f.Operator = .Between → ValidateFromAndToValues f = some e →
        BuildSQLWhere (pre ++ f :: post) = (e, [])) ∧
    (∀ (f : Field) (isLast : Bool) (psq g : Nat),
        f.Operator = .Between → f.IsValueFromTable = false →
        ValidateFromAndToValues f = none →
        whereStep f isLast psq g =
          .ok (stringsToLower (setDefaultValuesField f).Name ++ " " ++
                operatorField.Between.str ++ " $" ++ Nat.repr psq ++ " AND $" ++
                Nat.repr (psq + 1) ++
                (groupCloseStep (setDefaultValuesField f) isLast
                  (if (setDefaultValuesField f).GroupOpen then g + 1 else g)).1 ++
                chainText (setDefaultValuesField f) isLast,
               (if f.Value ≠ .vNil then [f.Value] else []) ++ [f.FromValue, f.ToValue],
               psq + 2,
               (groupCloseStep (setDefaultValuesField f) isLast
                  (if (setDefaultValuesField f).GroupOpen then g + 1 else g)).2)) := by
  constructor
  · intro pre post f e hpre hb hval
    unfold BuildSQLWhere
    rw [if_neg (by simp)]
    exact buildWhereAux_between_abort pre f post e 1 0 "WHERE " [] hpre hb hval
  · exact whereStep_between

/-- Witness for C5: the abort case on a singleton sequence, and the
success step at concrete inputs. -/
theorem claim_C5_witness :
    BuildSQLWhere ([] ++ c5AbortField :: []) = (errFromValueIsEmpty, []) ∧
    whereStep c5OkField true 1 0 =
      .ok (stringsToLower (setDefaultValuesField c5OkField).Name ++ " " ++
            operatorField.Between.str ++ " $" ++ Nat.repr 1 ++ " AND $" ++
            Nat.repr (1 + 1) ++
            (groupCloseStep (setDefaultValuesField c5OkField) true
              (if (setDefaultValuesField c5OkField).GroupOpen then 0 + 1 else 0)).1 ++
            chainText (setDefaultValuesField c5OkField) true,
           (if c5OkField.Value ≠ .vNil then [c5OkField.Value] else []) ++
             [c5OkField.FromValue, c5OkField.ToValue],
           1 + 2,
           (groupCloseStep (setDefaultValuesField c5OkField) true
              (if (setDefaultValuesField c5OkField).GroupOpen then 0 + 1 else 0)).2) :=
  ⟨claim_C5.1 [] [] c5AbortField errFromValueIsEmpty (by simp) rfl (by decide),
   claim_C5.2 c5OkField true 1 0 rfl rfl (by decide)⟩

/-! ### Claim C1 -/

theorem buildWhereAux_cons_ok (f : Field) (rest : List Field) (psq g : Nat) (q : String)
    (args : List GoValue) (t : String) (as : List GoValue) (psq1 g2 : Nat)
    (h : whereStep f rest.isEmpty psq g = .ok (t, as, psq1, g2)) :
    buildWhereAux (f :: rest) psq g q args =
      buildWhereAux rest psq1 g2 (q ++ t) (args ++ as) := by
  rw [buildWhereAux, h]

theorem whereStep_scalar (f : Field) (isLast : Bool) (psq : Nat)
    (hop : f.Operator.isScalar = true) (hgo : f.GroupOpen = false)
    (hgc : f.GroupClose = false) (hv : f.IsValueFromTable = false → f.Value ≠ .vNil) :
    whereStep f isLast psq 0 =
      .ok (scalarClause f psq ++ chainText (setDefaultValuesField f) isLast,
           if f.IsValueFromTable = true then [] else [f.Value],
           psq + scalarConsume f, 0) := by
  have hne : f.Operator ≠ .unset := by
    intro hh
    rw [hh] at hop
    exact absurd hop (by decide)
  have hop2 : (setDefaultValuesField f).Operator = f.Operator :=
    setDefault_Operator_of_ne_unset f hne
  have hgo2 : (setDefaultValuesField f).GroupOpen = false := by
    rw [setDefault_GroupOpen]; exact hgo
  have hgc2 : (setDefaultValuesField f).GroupClose = false := by
    rw [setDefault_GroupClose]; exact hgc
  have hvt2 := setDefault_IsValueFromTable f
  cases hoc : f.Operator <;> try (rw [hoc] at hop; exact absurd hop (by decide))
  all_goals
    cases hvt : f.IsValueFromTable <;>
      rw [hvt] at hvt2 <;>
      simp [whereStep, whereBodyClose, groupCloseStep, scalarClause, scalarConsume,
        hop2, hoc, hgo2, hgc2, hvt2, hvt, setDefault_Value, hv]

theorem buildWhereAux_scalar :
    ∀ (fields : List Field) (psq : Nat) (q : String) (args : List GoValue),
      fields ≠ [] →
      (∀ f ∈ fields, f.Operator.isScalar = true ∧ f.GroupOpen = false ∧
        f.GroupClose = false ∧ (f.IsValueFromTable = false → f.Value ≠ .vNil)) →
      buildWhereAux fields psq 0 q args =
        (q ++ scalarFragSpec fields psq, args ++ scalarArgsSpec fields) := by
  intro fields
  induction fields with
  | nil => intro psq q args hne; simp at hne
  | cons f rest ih =>
    intro psq q args hne hall
    obtain ⟨hop, hgo, hgc, hv⟩ := hall f (by simp)
    have hstep := whereStep_scalar f rest.isEmpty psq hop hgo hgc hv
    cases rest with
    | nil =>
      rw [buildWhereAux_cons_ok f [] psq 0 q args _ _ _ _ hstep]
      cases hvt : f.IsValueFromTable <;>
        simp [buildWhereAux, scalarFragSpec, scalarArgsSpec, chainText, hvt, List.filter]
    | cons f2 rest' =>
      rw [buildWhereAux_cons_ok f (f2 :: rest') psq 0 q args _ _ _ _ hstep]
      rw [ih (psq + scalarConsume f) _ _ (by simp)
        (fun gf hgf => hall gf (by simp [hgf]))]
      cases hvt : f.IsValueFromTable <;>
        simp [scalarFragSpec, scalarArgsSpec, chainText, hvt, List.filter,
          String.append_assoc]

/-- C1 as stated is false: a predicate using the scalar-comparison operator
`Equals` with no grouping flags but a nil `Value` renders the fragment
`WHERE a = $1` — one emitted placeholder — while appending no argument,
so the placeholder count and the argument count differ. -/
theorem claim_C1_counterexample :
    countChar '$' (BuildSQLWhere [{ Name := "a", Operator := .Equals }]).1 = 1 ∧
    (BuildSQLWhere [{ Name := "a", Operator := .Equals }]).2.length = 0 := by decide

/-- C1 amended: for every non-empty predicate sequence whose predicates
all use scalar-comparison operators with no grouping flags, and where
every predicate that is not a cross-table comparison carries a non-nil
`Value`, `BuildSQLWhere` produces exactly the closed form
`scalarFragSpec` / `scalarArgsSpec`: the k-th placeholder-consuming
predicate is rendered with `$(k+1)` (the counter advances by
`scalarConsume` per predicate starting from 1) and `arguments[k]` is
that predicate's `Value`, so placeholders and arguments agree in number
and order. -/
theorem claim_C1_amended (fields : List Field) (hne : fields ≠ [])
    (hall : ∀ f ∈ fields, f.Operator.isScalar = true ∧ f.GroupOpen = false ∧
      f.GroupClose = false ∧ (f.IsValueFromTable = false → f.Value ≠ .vNil)) :
    BuildSQLWhere fields = ("WHERE " ++ scalarFragSpec fields 1, scalarArgsSpec fields) ∧
    (scalarArgsSpec fields).length =
      (fields.filter (fun f => !f.IsValueFromTable)).length := by
  constructor
  · unfold BuildSQLWhere
    rw [if_neg (by simp [hne])]
    simpa using buildWhereAux_scalar fields 1 "WHERE " [] hne hall
  · simp [scalarArgsSpec]

/-- Witness for C1 (amended): a three-predicate scalar sequence including
a cross-table comparison, which consumes no placeholder and contributes
no argument. -/
theorem claim_C1_witness :
    BuildSQLWhere c1Fields =
      ("WHERE " ++ scalarFragSpec c1Fields 1, scalarArgsSpec c1Fields) ∧
    (scalarArgsSpec c1Fields).length =
      (c1Fields.filter (fun f => !f.IsValueFromTable)).length :=
  claim_C1_amended c1Fields (by simp [c1Fields]) (by decide)

/-! ### Claim C4 -/

theorem setDefault_Operator_Between (f : Field) :
    (setDefaultValuesField f).Operator = .Between ↔ f.Operator = .Between := by
  rw [setDefault_Operator]
  split <;> simp_all

theorem whereBodyClose_error_imp (f : Field) (isLast : Bool) (psq g1 : Nat) (e : String)
    (h : whereBodyClose f isLast psq g1 = .error e) :
    f.Operator = .Between ∧ ValidateFromAndToValues f = some e := by
  cases hoc : f.Operator
  case Between =>
    refine ⟨rfl, ?_⟩
    cases hv : ValidateFromAndToValues f with
    | none => simp [whereBodyClose, hoc, hv] at h
    | some e2 =>
      simp [whereBodyClose, hoc, hv] at h
      rw [h]
  all_goals
    cases hvt : f.IsValueFromTable <;> simp [whereBodyClose, hoc, hvt] at h

theorem whereStep_of_bodyClose_ok (f : Field) (isLast : Bool) (psq g : Nat)
    (t : String) (psq1 g2 : Nat)
    (h : whereBodyClose (setDefaultValuesField f) isLast psq
        (if (setDefaultValuesField f).GroupOpen then g + 1 else g) = .ok (t, psq1, g2)) :
    whereStep f isLast psq g =
      if (setDefaultValuesField f).Operator = .In ∨
          (setDefaultValuesField f).Operator = .IsNull ∨
          (setDefaultValuesField f).Operator = .IsNotNull ∨
          (setDefaultValuesField f).IsValueFromTable then
        .ok (t ++ chainText (setDefaultValuesField f) isLast, [], psq1, g2)
      else
        .ok (t ++ chainText (setDefaultValuesField f) isLast,
          (if (setDefaultValuesField f).Value ≠ .vNil
            then [(setDefaultValuesField f).Value] else []) ++
          (if (setDefaultValuesField f).Operator = .Between
            then [(setDefaultValuesField f).FromValue, (setDefaultValuesField f).ToValue]
            else []),
          psq1 + 1, g2) := by
  simp [whereStep, h]

theorem buildWhereAux_connectors :
    ∀ (fields : List Field) (psq g : Nat) (q : String) (args : List GoValue),
      (∀ f ∈ fields, f.Operator = .Between → ValidateFromAndToValues f = none) →
      (buildWhereAux fields psq g q args).1 = q ++ renderWithConnectors fields psq g := by
  intro fields
  induction fields with
  | nil => intro psq g q args _; simp [buildWhereAux, renderWithConnectors]
  | cons f rest ih =>
    intro psq g q args h
    cases hbc : whereBodyClose (setDefaultValuesField f) rest.isEmpty psq
        (if (setDefaultValuesField f).GroupOpen then g + 1 else g) with
    | error e =>
      exfalso
      obtain ⟨hbop, hbval⟩ := whereBodyClose_error_imp _ _ _ _ _ hbc
      have hfop : f.Operator = .Between := (setDefault_Operator_Between f).mp hbop
      have hnone := h f (by simp) hfop
      rw [← validate_setDefault] at hnone
      rw [hnone] at hbval
      cases hbval
    | ok tpg =>
      obtain ⟨t, psq1, g2⟩ := tpg
      have hws := whereStep_of_bodyClose_ok f rest.isEmpty psq g t psq1 g2 hbc
      by_cases hskip : (setDefaultValuesField f).Operator = .In ∨
          (setDefaultValuesField f).Operator = .IsNull ∨
          (setDefaultValuesField f).Operator = .IsNotNull ∨
          (setDefaultValuesField f).IsValueFromTable
      · rw [if_pos hskip] at hws
        rw [buildWhereAux_cons_ok f rest psq g q args _ _ _ _ hws]
        cases rest with
        | nil =>
          simp only [List.isEmpty_nil] at hbc
          simp [buildWhereAux, renderWithConnectors, hbc, chainText]
        | cons f2 rest' =>
          simp only [List.isEmpty_cons] at hbc
          rw [ih psq1 g2 _ _ (fun gf hgf => h gf (by simp [hgf]))]
          simp [renderWithConnectors, hbc, chainText, hskip, String.append_assoc]
      · rw [if_neg hskip] at hws
        rw [buildWhereAux_cons_ok f rest psq g q args _ _ _ _ hws]
        cases rest with
        | nil =>
          simp only [List.isEmpty_nil] at hbc
          simp [buildWhereAux, renderWithConnectors, hbc, chainText]
        | cons f2 rest' =>
          simp only [List.isEmpty_cons] at hbc
          rw [ih (psq1 + 1) g2 _ _ (fun gf hgf => h gf (by simp [hgf]))]
          simp [renderWithConnectors, hbc, chainText, hskip, String.append_assoc]

/-- C4: for every non-empty predicate sequence (with valid `Between`
bounds, so rendering does not abort), the fragment decomposes as
`renderWithConnectors`: the connector emitted between the piece of
predicate `i` and the piece of predicate `i+1` is the (defaulted)
`ChainingKey` of predicate `i`, and after the last predicate's piece
nothing is emitted, so the last predicate's `ChainingKey` never appears. -/
theorem claim_C4 (fields : List Field) (hne : fields ≠ [])
    (hok : ∀ f ∈ fields, f.Operator = .Between → ValidateFromAndToValues f = none) :
    (BuildSQLWhere fields).1 = "WHERE " ++ renderWithConnectors fields 1 0 := by
  unfold BuildSQLWhere
  rw [if_neg (by simp [hne])]
  exact buildWhereAux_connectors fields 1 0 "WHERE " [] hok

/-- Witness for C4 at the three-predicate input of claim C2. -/
theorem claim_C4_witness :
    (BuildSQLWhere c2Fields).1 = "WHERE " ++ renderWithConnectors c2Fields 1 0 :=
  claim_C4 c2Fields (by simp [c2Fields]) (by decide)

/-! ### Claim C3: counting and cleanliness lemmas -/

theorem countChar_append (c : Char) (a b : String) :
    countChar c (a ++ b) = countChar c a + countChar c b := by
  simp [countChar, String.data_append]

theorem counts_of_cleanStr (s : String) (h : cleanStr s = true) :
    countChar '(' s = 0 ∧ countChar ')' s = 0 := by
  simp only [cleanStr, List.all_eq_true, cleanChar, Bool.and_eq_true, Bool.not_eq_true',
    beq_eq_false_iff_ne] at h
  constructor <;>
    (apply List.count_eq_zero_of_not_mem
     intro hmem)
  · exact absurd rfl (h _ hmem).1
  · exact absurd rfl (h _ hmem).2

theorem cleanStr_append (a b : String) (ha : cleanStr a = true) (hb : cleanStr b = true) :
    cleanStr (a ++ b) = true := by
  simp only [cleanStr, String.data_append, List.all_append, Bool.and_eq_true]
  exact ⟨ha, hb⟩

theorem cleanChar_toLower (c : Char) (h : cleanChar c = true) :
    cleanChar (Char.toLower c) = true := by
  simp only [Char.toLower]
  split
  · rename_i hc
    obtain ⟨h1, h2⟩ := hc
    generalize hm : c.toNat = m at h1 h2 ⊢
    interval_cases m <;> decide
  · exact h

theorem cleanStr_stringsToLower (s : String) (h : cleanStr s = true) :
    cleanStr (stringsToLower s) = true := by
  unfold cleanStr at h ⊢
  unfold stringsToLower
  rw [List.all_eq_true] at h ⊢
  intro c hc
  obtain ⟨a, ha, rfl⟩ := List.mem_map.mp hc
  exact cleanChar_toLower a (h a ha)

theorem stringsToLower_append (a b : String) :
    stringsToLower (a ++ b) = stringsToLower a ++ stringsToLower b := by
  apply String.ext
  simp [stringsToLower, String.data_append]

theorem cleanChar_digitChar (n : Nat) : cleanChar (Nat.digitChar n) = true := by
  rcases Nat.lt_or_ge n 16 with h | h
  · interval_cases n <;> decide
  · have e0 : ¬(n = 0) := by omega
    have e1 : ¬(n = 1) := by omega
    have e2 : ¬(n = 2) := by omega
    have e3 : ¬(n = 3) := by omega
    have e4 : ¬(n = 4) := by omega
    have e5 : ¬(n = 5) := by omega
    have e6 : ¬(n = 6) := by omega
    have e7 : ¬(n = 7) := by omega
    have e8 : ¬(n = 8) := by omega
    have e9 : ¬(n = 9) := by omega
    have e10 : ¬(n = 10) := by omega
    have e11 : ¬(n = 11) := by omega
    have e12 : ¬(n = 12) := by omega
    have e13 : ¬(n = 13) := by omega
    have e14 : ¬(n = 14) := by omega
    have e15 : ¬(n = 15) := by omega
    simp only [Nat.digitChar, e0, e1, e2, e3, e4, e5, e6, e7, e8, e9, e10, e11, e12,
      e13, e14, e15, if_false]
    decide

theorem cleanStr_toDigitsCore :
    ∀ (fuel n : Nat) (acc : List Char), (∀ c ∈ acc, cleanChar c = true) →
      ∀ c ∈ Nat.toDigitsCore 10 fuel n acc, cleanChar c = true := by
  intro fuel
  induction fuel with
  | zero =>
    intro n acc hacc c hc
    rw [Nat.toDigitsCore] at hc
    exact hacc c hc
  | succ fuel ih =>
    intro n acc hacc c hc
    rw [Nat.toDigitsCore] at hc
    split at hc
    · rcases List.mem_cons.mp hc with rfl | hc2
      · exact cleanChar_digitChar _
      · exact hacc c hc2
    · refine ih (n / 10) _ ?_ c hc
      intro d hd
      rcases List.mem_cons.mp hd with rfl | hd2
      · exact cleanChar_digitChar _
      · exact hacc d hd2

theorem cleanStr_natRepr (n : Nat) : cleanStr (Nat.repr n) = true := by
  unfold cleanStr
  rw [List.all_eq_true]
  intro c hc
  exact cleanStr_toDigitsCore (n + 1) n [] (by intro d hd; cases hd) c hc

theorem cleanStr_intRepr (i : Int) : cleanStr (Int.repr i) = true := by
  cases i with
  | ofNat m => exact cleanStr_natRepr m
  | negSucc m =>
    exact cleanStr_append "-" (Nat.repr (m + 1)) (by decide) (cleanStr_natRepr (m + 1))

theorem closeParens_counts (n : Nat) :
    countChar '(' (closeParens n) = 0 ∧ countChar ')' (closeParens n) = n := by
  constructor
  · simp [countChar, closeParens, List.count_replicate]
  · simp [countChar, closeParens]

theorem cleanStr_dropLastStr (s : String) (h : cleanStr s = true) :
    cleanStr ⟨s.data.dropLast⟩ = true := by
  unfold cleanStr at h ⊢
  rw [List.all_eq_true] at h ⊢
  intro c hc
  exact h c ((List.dropLast_sublist s.data).subset hc)

theorem cleanStr_trimSuffixComma (s : String) (h : cleanStr s = true) :
    cleanStr (trimSuffixComma s) = true := by
  unfold trimSuffixComma
  split
  · exact cleanStr_dropLastStr s h
  · exact h

theorem cleanStr_foldlComma {α : Type} (gstr : α → String) (xs : List α)
    (h : ∀ x ∈ xs, cleanStr (gstr x) = true) :
    ∀ acc : String, cleanStr acc = true →
      cleanStr (xs.foldl (fun a x => a ++ gstr x ++ ",") acc) = true := by
  induction xs with
  | nil => intro acc hacc; simpa using hacc
  | cons x rest ih =>
    intro acc hacc
    rw [List.foldl_cons]
    exact ih (fun y hy => h y (by simp [hy])) _
      (cleanStr_append _ "," (cleanStr_append acc (gstr x) hacc (h x (by simp))) (by decide))

theorem validate_msg_cases (f : Field) (e : String) (h : ValidateFromAndToValues f = some e) :
    e = errFromValueIsEmpty ∨ e = errToValueIsEmpty ∨ e = errFromAndToValuesAreMissMatch := by
  unfold ValidateFromAndToValues at h
  split_ifs at h <;> simp_all

theorem groupCloseStep_fst (fd : Field) (isLast : Bool) (g1 : Nat) :
    (groupCloseStep fd isLast g1).1 =
      (if 0 < g1 ∧ fd.GroupClose = true then ")" else "") ++
        (if 0 < (if 0 < g1 ∧ fd.GroupClose = true then g1 - 1 else g1) ∧ isLast = true
          then closeParens (if 0 < g1 ∧ fd.GroupClose = true then g1 - 1 else g1)
          else "") := rfl

theorem groupCloseStep_snd (fd : Field) (isLast : Bool) (g1 : Nat) :
    (groupCloseStep fd isLast g1).2 =
      if 0 < g1 ∧ fd.GroupClose = true then g1 - 1 else g1 := rfl

theorem groupCloseStep_counts (fd : Field) (isLast : Bool) (g1 : Nat) :
    countChar '(' (groupCloseStep fd isLast g1).1 = 0 ∧
    (isLast = false →
      countChar ')' (groupCloseStep fd isLast g1).1 + (groupCloseStep fd isLast g1).2 = g1) ∧
    (isLast = true → countChar ')' (groupCloseStep fd isLast g1).1 = g1) := by
  have hc1 : countChar '(' ")" = 0 := by decide
  have hc2 : countChar ')' ")" = 1 := by decide
  have hc3 : countChar '(' "" = 0 := by decide
  have hc4 : countChar ')' "" = 0 := by decide
  rw [groupCloseStep_fst, groupCloseStep_snd]
  by_cases hA : 0 < g1 ∧ fd.GroupClose = true
  · have hA1 := hA.1
    simp only [if_pos hA]
    by_cases hB : 0 < g1 - 1 ∧ isLast = true
    · simp only [if_pos hB]
      refine ⟨?_, ?_, ?_⟩
      · rw [countChar_append, hc1, (closeParens_counts _).1]
      · intro h
        rw [h] at hB
        simp at hB
      · intro h
        rw [countChar_append, hc2, (closeParens_counts _).2]
        omega
    · simp only [if_neg hB]
      refine ⟨?_, ?_, ?_⟩
      · rw [countChar_append, hc1, hc3]
      · intro h
        rw [countChar_append, hc2, hc4]
        omega
      · intro h
        rw [countChar_append, hc2, hc4]
        have hng : ¬(0 < g1 - 1) := fun hp => hB ⟨hp, h⟩
        omega
  · simp only [if_neg hA]
    by_cases hB : 0 < g1 ∧ isLast = true
    · simp only [if_pos hB]
      refine ⟨?_, ?_, ?_⟩
      · rw [countChar_append, hc3, (closeParens_counts _).1]
      · intro h
        rw [h] at hB
        simp at hB
      · intro h
        rw [countChar_append, hc4, (closeParens_counts _).2]
        omega
    · simp only [if_neg hB]
      refine ⟨?_, ?_, ?_⟩
      · rw [countChar_append, hc3]
      · intro h
        rw [countChar_append, hc4]
        omega
      · intro h
        rw [countChar_append, hc4]
        have hng : ¬(0 < g1) := fun hp => hB ⟨hp, h⟩
        omega

theorem setDefault_Operator_ne_unset (f : Field) :
    (setDefaultValuesField f).Operator ≠ .unset := by
  rw [setDefault_Operator]
  split <;> simp_all

theorem cleanStr_opStr (op : operatorField) : cleanStr op.str = true := by
  cases op <;> decide

theorem cleanField_parts (f : Field) (h : cleanField f = true) :
    cleanStr f.Name = true ∧ cleanStr f.Source = true ∧
    cleanStr f.NameValueFromTable = true ∧ cleanStr f.SourceNameValueFromTable = true ∧
    cleanValue f.Value = true := by
  simp only [cleanField, Bool.and_eq_true] at h
  exact ⟨h.1.1.1.1, h.1.1.1.2, h.1.1.2, h.1.2, h.2⟩

theorem setDefault_name_counts (f : Field) (hn : cleanStr f.Name = true)
    (hs : cleanStr f.Source = true) :
    countChar '(' (stringsToLower (setDefaultValuesField f).Name) =
      (if f.GroupOpen then 1 else 0) ∧
    countChar ')' (stringsToLower (setDefaultValuesField f).Name) = 0 := by
  have hbase : cleanStr (if f.Source ≠ "" then f.Source ++ "." ++ f.Name else f.Name) = true := by
    split
    · exact cleanStr_append _ _ (cleanStr_append _ _ hs (by decide)) hn
    · exact hn
  have hcounts := counts_of_cleanStr _ (cleanStr_stringsToLower _ hbase)
  rw [setDefault_Name]
  by_cases hgo : f.GroupOpen = true
  · simp only [if_pos hgo]
    constructor
    · rw [stringsToLower_append, countChar_append, hcounts.1]
      decide
    · rw [stringsToLower_append, countChar_append, hcounts.2]
      decide
  · simp only [if_neg hgo]
    exact hcounts

theorem setDefault_nvft_counts (f : Field) (hn : cleanStr f.NameValueFromTable = true)
    (hs : cleanStr f.SourceNameValueFromTable = true) :
    countChar '(' (stringsToLower (setDefaultValuesField f).NameValueFromTable) = 0 ∧
    countChar ')' (stringsToLower (setDefaultValuesField f).NameValueFromTable) = 0 := by
  have hbase : cleanStr
      (if f.SourceNameValueFromTable ≠ "" then
        f.SourceNameValueFromTable ++ "." ++ f.NameValueFromTable
       else f.NameValueFromTable) = true := by
    split
    · exact cleanStr_append _ _ (cleanStr_append _ _ hs (by decide)) hn
    · exact hn
  rw [setDefault_NameValueFromTable]
  exact counts_of_cleanStr _ (cleanStr_stringsToLower _ hbase)

theorem counts_fallback (nameL : String) (k : Nat) (hno : countChar '(' nameL = k)
    (hnc : countChar ')' nameL = 0) :
    countChar '(' (nameL ++ " = 0") = countChar ')' (nameL ++ " = 0") + k := by
  have e1 : countChar '(' " = 0" = 0 := by decide
  have e2 : countChar ')' " = 0" = 0 := by decide
  rw [countChar_append, countChar_append, hno, hnc, e1, e2]
  omega

theorem counts_inList (nameL middle : String) (k : Nat) (hno : countChar '(' nameL = k)
    (hnc : countChar ')' nameL = 0) (hm : cleanStr middle = true) :
    countChar '(' (nameL ++ " IN (" ++ middle ++ ")") =
      countChar ')' (nameL ++ " IN (" ++ middle ++ ")") + k := by
  obtain ⟨m1, m2⟩ := counts_of_cleanStr middle hm
  have e1 : countChar '(' " IN (" = 1 := by decide
  have e2 : countChar ')' " IN (" = 0 := by decide
  have e3 : countChar '(' ")" = 0 := by decide
  have e4 : countChar ')' ")" = 1 := by decide
  rw [countChar_append, countChar_append, countChar_append, countChar_append,
    countChar_append, countChar_append, hno, hnc, m1, m2, e1, e2, e3, e4]
  omega

theorem buildIN_parens (f : Field) (hval : cleanValue f.Value = true) (k : Nat)
    (hno : countChar '(' (stringsToLower f.Name) = k)
    (hnc : countChar ')' (stringsToLower f.Name) = 0) :
    countChar '(' (BuildIN f) = countChar ')' (BuildIN f) + k := by
  rcases hfv : f.Value with _ | n | n | s | b | xs | xs | xs | xs | xs | xs | xs
  case vIntList =>
    cases xs with
    | nil => simp only [BuildIN, hfv, List.length_nil, if_pos rfl]
             exact counts_fallback _ k hno hnc
    | cons x rest =>
      simp only [BuildIN, hfv]
      rw [if_neg (by simp)]
      exact counts_inList _ _ k hno hnc
        (cleanStr_trimSuffixComma _
          (cleanStr_foldlComma Int.repr (x :: rest)
            (fun y _ => cleanStr_intRepr y) "" (by decide)))
  case vUintList =>
    cases xs with
    | nil => simp only [BuildIN, hfv, List.length_nil, if_pos rfl]
             exact counts_fallback _ k hno hnc
    | cons x rest =>
      simp only [BuildIN, hfv]
      rw [if_neg (by simp)]
      exact counts_inList _ _ k hno hnc
        (cleanStr_trimSuffixComma _
          (cleanStr_foldlComma Nat.repr (x :: rest)
            (fun y _ => cleanStr_natRepr y) "" (by decide)))
  case vStringList =>
    rw [hfv] at hval
    have hitems : ∀ y ∈ xs, cleanStr y = true := by
      simpa [cleanValue, List.all_eq_true] using hval
    cases xs with
    | nil => simp only [BuildIN, hfv, List.length_nil, if_pos rfl]
             exact counts_fallback _ k hno hnc
    | cons x rest =>
      simp only [BuildIN, hfv]
      rw [if_neg (by simp)]
      refine counts_inList _ _ k hno hnc
        (cleanStr_trimSuffixComma _
          (cleanStr_foldlComma (fun s => "'" ++ s ++ "'") (x :: rest) ?_ "" (by decide)))
      intro y hy
      exact cleanStr_append _ _ (cleanStr_append _ _ (by decide) (hitems y hy)) (by decide)
  all_goals
    simp only [BuildIN, hfv]
  all_goals
    exact counts_fallback _ k hno hnc

theorem chainText_counts (fd : Field) (isLast : Bool) :
    countChar '(' (chainText fd isLast) = 0 ∧ countChar ')' (chainText fd isLast) = 0 := by
  unfold chainText
  split
  · exact ⟨by decide, by decide⟩
  · cases hck : fd.ChainingKey <;> exact ⟨by decide, by decide⟩

theorem body_close_balance (body : String) (fd : Field) (isLast : Bool) (g go : Nat)
    (hbody : countChar '(' body = countChar ')' body + go) :
    (isLast = false →
      countChar '(' (body ++ (groupCloseStep fd isLast (g + go)).1) + g =
        countChar ')' (body ++ (groupCloseStep fd isLast (g + go)).1) +
          (groupCloseStep fd isLast (g + go)).2) ∧
    (isLast = true →
      countChar '(' (body ++ (groupCloseStep fd isLast (g + go)).1) + g =
        countChar ')' (body ++ (groupCloseStep fd isLast (g + go)).1)) := by
  obtain ⟨h0, hF, hT⟩ := groupCloseStep_counts fd isLast (g + go)
  constructor
  · intro hl
    have hh := hF hl
    rw [countChar_append, countChar_append, h0, hbody]
    omega
  · intro hl
    have hh := hT hl
    rw [countChar_append, countChar_append, h0, hbody]
    omega

theorem whereBody_counts (f0 : Field) (isLast : Bool) (psq g : Nat)
    (hclean : cleanField f0 = true) (t : String) (psq1 g2 : Nat)
    (h : whereBodyClose (setDefaultValuesField f0) isLast psq
        (if (setDefaultValuesField f0).GroupOpen then g + 1 else g) = .ok (t, psq1, g2)) :
    (isLast = false → countChar '(' t + g = countChar ')' t + g2) ∧
    (isLast = true → countChar '(' t + g = countChar ')' t) := by
  obtain ⟨hn, hs, hnv, hsv, hval⟩ := cleanField_parts f0 hclean
  obtain ⟨hno, hnc⟩ := setDefault_name_counts f0 hn hs
  obtain ⟨hvo, hvc⟩ := setDefault_nvft_counts f0 hnv hsv
  have hg1 : (if (setDefaultValuesField f0).GroupOpen then g + 1 else g) =
      g + (if f0.GroupOpen then 1 else 0) := by
    rw [setDefault_GroupOpen]
    by_cases hb : f0.GroupOpen = true
    · simp [hb]
    · simp [hb]
  rw [hg1] at h
  have hsp1 : countChar '(' " " = 0 := by decide
  have hsp2 : countChar ')' " " = 0 := by decide
  have hd1 : countChar '(' " $" = 0 := by decide
  have hd2 : countChar ')' " $" = 0 := by decide
  have ha1 : countChar '(' " AND $" = 0 := by decide
  have ha2 : countChar ')' " AND $" = 0 := by decide
  have hop1 : ∀ op : operatorField, countChar '(' op.str = 0 :=
    fun op => (counts_of_cleanStr _ (cleanStr_opStr op)).1
  have hop2 : ∀ op : operatorField, countChar ')' op.str = 0 :=
    fun op => (counts_of_cleanStr _ (cleanStr_opStr op)).2
  have hr1 : ∀ n : Nat, countChar '(' (Nat.repr n) = 0 :=
    fun n => (counts_of_cleanStr _ (cleanStr_natRepr n)).1
  have hr2 : ∀ n : Nat, countChar ')' (Nat.repr n) = 0 :=
    fun n => (counts_of_cleanStr _ (cleanStr_natRepr n)).2
  cases hoc : (setDefaultValuesField f0).Operator
  case unset => exact absurd hoc (setDefault_Operator_ne_unset f0)
  case In =>
    simp only [whereBodyClose, hoc, Except.ok.injEq, Prod.mk.injEq] at h
    obtain ⟨ht, _, hg2⟩ := h
    subst ht
    subst hg2
    exact body_close_balance _ _ _ _ _
      (buildIN_parens (setDefaultValuesField f0)
        (by rw [setDefault_Value]; exact hval) _ hno hnc)
  case Between =>
    cases hvv : ValidateFromAndToValues (setDefaultValuesField f0) with
    | some e =>
      simp only [whereBodyClose, hoc, hvv] at h
      cases h
    | none =>
      simp only [whereBodyClose, hoc, hvv, Except.ok.injEq, Prod.mk.injEq] at h
      obtain ⟨ht, _, hg2⟩ := h
      subst ht
      subst hg2
      refine body_close_balance _ _ _ _ _ ?_
      simp only [countChar_append, hno, hnc, hsp1, hsp2, hd1, hd2, ha1, ha2,
        hop1, hop2, hr1, hr2]
      omega
  case IsNull =>
    simp only [whereBodyClose, hoc, Except.ok.injEq, Prod.mk.injEq] at h
    obtain ⟨ht, _, hg2⟩ := h
    subst ht
    subst hg2
    refine body_close_balance _ _ _ _ _ ?_
    simp only [countChar_append, hno, hnc, hsp1, hsp2, hop1, hop2]
    omega
  case IsNotNull =>
    simp only [whereBodyClose, hoc, Except.ok.injEq, Prod.mk.injEq] at h
    obtain ⟨ht, _, hg2⟩ := h
    subst ht
    subst hg2
    refine body_close_balance _ _ _ _ _ ?_
    simp only [countChar_append, hno, hnc, hsp1, hsp2, hop1, hop2]
    omega
  all_goals
    cases hvt : (setDefaultValuesField f0).IsValueFromTable <;>
      (simp only [whereBodyClose, hoc, hvt, Bool.false_eq_true, if_false, if_true,
        Except.ok.injEq, Prod.mk.injEq] at h
       obtain ⟨ht, _, hg2⟩ := h
       subst ht
       subst hg2
       refine body_close_balance _ _ _ _ _ ?_
       simp only [countChar_append, hno, hnc, hvo, hvc, hsp1, hsp2, hd1, hd2,
         hop1, hop2, hr1, hr2]
       omega)

theorem whereStep_parens (f0 : Field) (isLast : Bool) (psq g : Nat)
    (hclean : cleanField f0 = true) (t : String) (as : List GoValue) (psq1 g2 : Nat)
    (h : whereStep f0 isLast psq g = .ok (t, as, psq1, g2)) :
    (isLast = false → countChar '(' t + g = countChar ')' t + g2) ∧
    (isLast = true → countChar '(' t + g = countChar ')' t) := by
  cases hbc : whereBodyClose (setDefaultValuesField f0) isLast psq
      (if (setDefaultValuesField f0).GroupOpen then g + 1 else g) with
  | error e => simp [whereStep, hbc] at h
  | ok tpg =>
    obtain ⟨t0, psq1', g2'⟩ := tpg
    have hws := whereStep_of_bodyClose_ok f0 isLast psq g t0 psq1' g2' hbc
    rw [hws] at h
    obtain ⟨hbF, hbT⟩ := whereBody_counts f0 isLast psq g hclean t0 psq1' g2' hbc
    obtain ⟨hc0, hc0'⟩ := chainText_counts (setDefaultValuesField f0) isLast
    split at h <;>
      (simp only [Except.ok.injEq, Prod.mk.injEq] at h
       obtain ⟨ht, _, _, hg2⟩ := h
       subst ht
       subst hg2
       refine ⟨?_, ?_⟩
       · intro hl
         have hh := hbF hl
         rw [countChar_append, countChar_append, hc0, hc0']
         omega
       · intro hl
         have hh := hbT hl
         rw [countChar_append, countChar_append, hc0, hc0']
         omega)

theorem buildWhereAux_cons_error (f : Field) (rest : List Field) (psq g : Nat) (q : String)
    (args : List GoValue) (e : String) (h : whereStep f rest.isEmpty psq g = .error e) :
    buildWhereAux (f :: rest) psq g q args = (e, []) := by
  rw [buildWhereAux, h]

theorem whereStep_error_imp (f : Field) (isLast : Bool) (psq g : Nat) (e : String)
    (h : whereStep f isLast psq g = .error e) :
    whereBodyClose (setDefaultValuesField f) isLast psq
      (if (setDefaultValuesField f).GroupOpen then g + 1 else g) = .error e := by
  cases hbc : whereBodyClose (setDefaultValuesField f) isLast psq
      (if (setDefaultValuesField f).GroupOpen then g + 1 else g) with
  | error e2 =>
    simp [whereStep, hbc] at h
    rw [h]
  | ok tpg =>
    obtain ⟨t0, psq1', g2'⟩ := tpg
    have hws := whereStep_of_bodyClose_ok f isLast psq g t0 psq1' g2' hbc
    rw [hws] at h
    split at h <;> cases h

theorem buildWhereAux_balance :
    ∀ (fields : List Field) (psq g : Nat) (q : String) (args : List GoValue),
      (∀ f ∈ fields, cleanField f = true) →
      countChar '(' q = countChar ')' q + g →
      fields ≠ [] →
      countChar '(' (buildWhereAux fields psq g q args).1 =
        countChar ')' (buildWhereAux fields psq g q args).1 := by
  intro fields
  induction fields with
  | nil => intro psq g q args _ _ hne; exact absurd rfl hne
  | cons f rest ih =>
    intro psq g q args hclean hq hne
    cases hstep : whereStep f rest.isEmpty psq g with
    | error e =>
      rw [buildWhereAux_cons_error f rest psq g q args e hstep]
      obtain ⟨_, hval⟩ := whereBodyClose_error_imp _ _ _ _ _
        (whereStep_error_imp f rest.isEmpty psq g e hstep)
      rcases validate_msg_cases _ _ hval with rfl | rfl | rfl <;> decide
    | ok tup =>
      obtain ⟨t, as, psq1, g2⟩ := tup
      rw [buildWhereAux_cons_ok f rest psq g q args _ _ _ _ hstep]
      obtain ⟨hF, hT⟩ :=
        whereStep_parens f rest.isEmpty psq g (hclean f (by simp)) t as psq1 g2 hstep
      cases rest with
      | nil =>
        have h2 := hT rfl
        show countChar '(' (q ++ t) = countChar ')' (q ++ t)
        rw [countChar_append, countChar_append]
        omega
      | cons f2 rest' =>
        refine ih psq1 g2 (q ++ t) (args ++ as)
          (fun gf hgf => hclean gf (by simp [hgf])) ?_ (by simp)
        have h1 := hF rfl
        rw [countChar_append, countChar_append]
        omega

/-- C3: for every predicate sequence whose caller-supplied strings contain
no parenthesis characters, the fragment returned by `BuildSQLWhere`
contains an equal number of `(` and `)` characters — a `GroupClose` at
depth zero emits no `)`, and any depth still open after the last
predicate is force-closed at the end. -/
theorem claim_C3 (fields : List Field) (hclean : ∀ f ∈ fields, cleanField f = true) :
    countChar '(' (BuildSQLWhere fields).1 = countChar ')' (BuildSQLWhere fields).1 := by
  unfold BuildSQLWhere
  split
  · decide
  · rename_i hlen
    refine buildWhereAux_balance fields 1 0 "WHERE " [] hclean (by decide) ?_
    intro hnil
    rw [hnil] at hlen
    simp at hlen

/-- Witness for C3 on a sequence whose grouping flags are unbalanced in
both directions. -/
theorem claim_C3_witness :
    countChar '(' (BuildSQLWhere c3Fields).1 = countChar ')' (BuildSQLWhere c3Fields).1 :=
  claim_C3 c3Fields (by decide)

end DbQueryBuilder
